import Mathlib

/-!
Verification of the AlgoLive market-simulation engine
(src/market_simulation/arena.py).  We embed the order-execution ledger
(`Arena._execute_order`), the per-tick equity/risk pipeline of
`Arena._loop` (equity mark-to-market, cash-out, emergency stop) and the
intent validation that guards strategy output.  Prices, quantities and
cash are exact rationals; the adverse random slippage factor drawn by
`np.random.uniform(0.0001, 0.0005)` is an explicit parameter `slip`.
Symbols are indices `Fin n` for a fixed universe of `n` tradable
symbols; a missing ticker entry has price `0`, matching
`tickers.get(sym, {}).get('price', 0)`.
-/

namespace AlgoLive

/-- A strategy decision string: `"BUY"`, `"SELL"` or `"HOLD"`. -/
inductive Decision
  | BUY
  | SELL
  | HOLD
deriving DecidableEq, Repr

/-- Per-agent account state, the fields of the `data` dict that
`_execute_order` and the risk checks read and write.  `entry_prices`
uses `Option` because the Python dict can lack a key (`del` removes
it); `portfolio` is the signed per-symbol quantity. -/
structure Account (n : ℕ) where
  cash : ℚ
  equity : ℚ
  roi : ℚ
  portfolio : Fin n → ℚ
  entry_prices : Fin n → Option ℚ
  total_fees : ℚ
  trades_count : ℕ
  wins : ℕ
  cashed_out : ℚ

/-- Sum of `f` over all `n` symbols (the Python `for ... in dict.items()`
accumulation). -/
def sumQ (n : ℕ) (f : Fin n → ℚ) : ℚ :=
  (List.finRange n).foldr (fun i acc => f i + acc) 0

/-- Marked-to-market equity: `cash + Σ holdings[s] * price[s]`, exactly the
accumulation `total_equity = data['cash']; for s, q in portfolio: total_equity
+= q * price` in `_execute_order` and the equity recalculation in `_loop`. -/
def markEquity (n : ℕ) (a : Account n) (price : Fin n → ℚ) : ℚ :=
  a.cash + sumQ n (fun s => a.portfolio s * price s)

/-- `current_long_value`: notional of the long side,
`sum(q * price for q > 0)`. -/
def longValue (n : ℕ) (a : Account n) (price : Fin n → ℚ) : ℚ :=
  sumQ n (fun s => if 0 < a.portfolio s then a.portfolio s * price s else 0)

/-- `current_short_value`: notional of the short side,
`sum(abs(q) * price for q < 0)`. -/
def shortValue (n : ℕ) (a : Account n) (price : Fin n → ℚ) : ℚ :=
  sumQ n (fun s => if a.portfolio s < 0 then |a.portfolio s| * price s else 0)

/-- `fee_rate = 0.00075` (0.075% taker fee). -/
def feeRate : ℚ := 3 / 4000

/-- The BUY branch of `Arena._execute_order`, entered with a known symbol,
positive quantity and positive mark price.  `slip` is the slippage draw, so
the fill price is `price * (1 + slip)`.  A cover (current quantity < 0) skips
the buying-power check but still requires `cash >= cost + fee`; an
opening/increasing long requires both `buying_power >= cost` and
`cash >= cost + fee`.  On a fill: the trade counter increments, the entry
price is rebuilt (cover toward/through zero clears it, a flip past zero or a
fresh long records the fill price, adding to a long takes the
notional-weighted average), cash drops by `cost + fee`, the position grows by
`quantity` and the fee accrues. -/
def buyExec (n : ℕ) (a : Account n) (sym : Fin n) (quantity : ℚ)
    (price : Fin n → ℚ) (slip : ℚ) : Account n × Bool × ℚ :=
  let p := price sym * (1 + slip)
  let cost := quantity * p
  let fee := cost * feeRate
  let total_req := cost + fee
  let buying_power := markEquity n a price * 4 - longValue n a price
  let curr_qty := a.portfolio sym
  let new_qty := curr_qty + quantity
  let prev_entry := (a.entry_prices sym).getD 0
  let entry' : Fin n → Option ℚ :=
    if curr_qty < 0 then
      if 0 ≤ new_qty then
        Function.update a.entry_prices sym (if 0 < new_qty then some p else none)
      else
        a.entry_prices
    else
      if 0 < new_qty then
        if 0 < curr_qty ∧ 0 < prev_entry then
          Function.update a.entry_prices sym
            (some ((curr_qty * prev_entry + quantity * p) / new_qty))
        else
          Function.update a.entry_prices sym (some p)
      else
        a.entry_prices
  let filled : Account n × Bool × ℚ :=
    ({ a with
        trades_count := a.trades_count + 1
        entry_prices := entry'
        cash := a.cash - total_req
        portfolio := Function.update a.portfolio sym new_qty
        total_fees := a.total_fees + fee }, true, fee)
  if curr_qty < 0 then
    if total_req ≤ a.cash then filled else (a, false, 0)
  else
    if cost ≤ buying_power ∧ total_req ≤ a.cash then filled else (a, false, 0)

/-- The SELL branch of `Arena._execute_order`, entered with a known symbol,
positive quantity and positive mark price; the fill price is
`price * (1 - slip)`.  The win counter and the trade counter are updated
before the leverage gate, so a short rejected for exceeding
`equity * 4 - current_short_value` still counts one trade.  Opening or
adding to a short requires the remaining short capacity to cover the
notional and keeps an existing short entry unchanged (only a fresh short
records the fill price); a SELL against a long position always fills, clears
the entry when the position fully closes, and re-records it at the fill
price when the position flips short. -/
def sellExec (n : ℕ) (a : Account n) (sym : Fin n) (quantity : ℚ)
    (price : Fin n → ℚ) (slip : ℚ) : Account n × Bool × ℚ :=
  let p := price sym * (1 - slip)
  let curr_qty := a.portfolio sym
  let revenue := quantity * p
  let fee := revenue * feeRate
  let proceeds := revenue - fee
  let prev_entry := (a.entry_prices sym).getD 0
  let wins' := if 0 < curr_qty ∧ 0 < prev_entry ∧ prev_entry < p then a.wins + 1 else a.wins
  let trades' := a.trades_count + 1
  let short_power := markEquity n a price * 4 - shortValue n a price
  if curr_qty ≤ 0 then
    if revenue ≤ short_power then
      ({ a with
          wins := wins'
          trades_count := trades'
          entry_prices :=
            if curr_qty = 0 then Function.update a.entry_prices sym (some p)
            else a.entry_prices
          cash := a.cash + proceeds
          portfolio := Function.update a.portfolio sym (curr_qty - quantity)
          total_fees := a.total_fees + fee }, true, fee)
    else
      ({ a with wins := wins', trades_count := trades' }, false, 0)
  else
    let new_qty := curr_qty - quantity
    ({ a with
        wins := wins'
        trades_count := trades'
        entry_prices :=
          if new_qty ≤ 0 then
            Function.update a.entry_prices sym (if new_qty < 0 then some p else none)
          else a.entry_prices
        cash := a.cash + proceeds
        portfolio := Function.update a.portfolio sym new_qty
        total_fees := a.total_fees + fee }, true, fee)

/-- `Arena._execute_order(name, data, decision, symbol, quantity, tickers)`.
Returns the updated account together with the `(executed, fee)` pair the
Python returns.  A HOLD, a missing symbol, a non-positive quantity or a
non-positive mark price is an immediate `(False, 0.0)` no-op. -/
def executeOrder (n : ℕ) (a : Account n) (decision : Decision)
    (symbol : Option (Fin n)) (quantity : ℚ) (price : Fin n → ℚ)
    (slip : ℚ) : Account n × Bool × ℚ :=
  match symbol with
  | none => (a, false, 0)
  | some sym =>
      if decision = .HOLD ∨ quantity ≤ 0 then (a, false, 0)
      else if price sym ≤ 0 then (a, false, 0)
      else if decision = .BUY then buyExec n a sym quantity price slip
      else sellExec n a sym quantity price slip

/-- The raw quantity a strategy returned: a numeric value (anything
`float(quantity)` accepts) or something not coercible to a float. -/
inductive RawQty
  | num (q : ℚ)
  | nonNum
deriving DecidableEq, Repr

/-- Outcome of invoking an agent's `execute_strategy`: either the body raised
(caught by the per-agent `try`/`except` in `_loop`) or it returned a
`(decision, symbol, quantity)` triple.  The raw symbol is an index into the
symbol universe (`some s`, known iff `s < n`) or `None`. -/
inductive StratOutcome
  | raises
  | returns (d : Decision) (symbol : Option ℕ) (q : RawQty)

/-- The validation block of `_loop`: for BUY/SELL, a quantity that cannot be
coerced to a float downgrades the decision to HOLD, and a symbol that is not
in `self.symbols` downgrades it to HOLD.  Returns the decision, the resolved
known symbol and the numeric quantity handed to `_execute_order` (a HOLD
decision makes the other two irrelevant there). -/
def validateIntent (n : ℕ) (d : Decision) (symbol : Option ℕ) (q : RawQty) :
    Decision × Option (Fin n) × ℚ :=
  if d = .BUY ∨ d = .SELL then
    let dq : Decision × ℚ :=
      match q with
      | .num v => (d, v)
      | .nonNum => (.HOLD, 0)
    match symbol with
    | some s =>
        if h : s < n then (dq.1, some ⟨s, h⟩, dq.2) else (.HOLD, none, dq.2)
    | none => (.HOLD, none, dq.2)
  else (.HOLD, none, 0)

/-- The per-agent trading part of a tick: invoke the strategy, validate and
execute.  A raising strategy leaves `decision = "HOLD"` and never reaches
`_execute_order`.  Returns (account, recorded decision, executed, fee). -/
def tradePhase (n : ℕ) (a : Account n) (outcome : StratOutcome)
    (price : Fin n → ℚ) (slip : ℚ) : Account n × Decision × Bool × ℚ :=
  match outcome with
  | .raises => (a, .HOLD, false, 0)
  | .returns d symbol q =>
      let v := validateIntent n d symbol q
      let r := executeOrder n a v.1 v.2.1 v.2.2 price slip
      (r.1, v.1, r.2.1, r.2.2)

/-- `CASHOUT_THRESHOLD = 0.50` (percent ROI). -/
def CASHOUT_THRESHOLD : ℚ := 1 / 2

/-- `EMERGENCY_STOP_LOSS = -2.0` (percent ROI). -/
def EMERGENCY_STOP_LOSS : ℚ := -2

/-- `STARTING_EQUITY = 100.0`. -/
def STARTING_EQUITY : ℚ := 100

/-- The post-trade part of `_loop` for one agent: recompute equity and ROI
from the live prices, then apply the cash-out rule (`roi >=
CASHOUT_THRESHOLD`: bank the profit into `cashed_out`, zero every position,
reset cash/equity to the baseline, clear entry prices) and then the
emergency stop (`roi <= EMERGENCY_STOP_LOSS`: liquidate every position into
cash at mark price, clear entry prices, recompute equity and ROI).  Returns
the account and the (cash-out fired, emergency fired) event flags. -/
def riskPhase (n : ℕ) (a : Account n) (price : Fin n → ℚ) :
    Account n × Bool × Bool :=
  let equity := markEquity n a price
  let a1 : Account n :=
    { a with equity := equity, roi := (equity - 100) / 100 * 100 }
  let step1 : Account n × Bool :=
    if CASHOUT_THRESHOLD ≤ a1.roi then
      ({ a1 with
          cashed_out := a1.cashed_out + (equity - STARTING_EQUITY)
          cash := STARTING_EQUITY
          portfolio := fun _ => 0
          equity := STARTING_EQUITY
          roi := 0
          entry_prices := fun _ => none }, true)
    else (a1, false)
  let a2 := step1.1
  let step2 : Account n × Bool :=
    if a2.roi ≤ EMERGENCY_STOP_LOSS then
      let cash' := a2.cash + sumQ n (fun s => a2.portfolio s * price s)
      ({ a2 with
          cash := cash'
          portfolio := fun _ => 0
          entry_prices := fun _ => none
          equity := cash'
          roi := (cash' - STARTING_EQUITY) / STARTING_EQUITY * 100 }, true)
    else (a2, false)
  (step2.1, step1.2, step2.2)

/-- Everything `_loop` does to one agent in one tick: trade phase (invoke,
validate, execute) followed by the risk phase. -/
structure TickResult (n : ℕ) where
  account : Account n
  decision : Decision
  executed : Bool
  fee : ℚ
  cashoutEvent : Bool
  emergencyEvent : Bool

/-- One agent's full tick. -/
def agentTick (n : ℕ) (a : Account n) (outcome : StratOutcome)
    (price : Fin n → ℚ) (slip : ℚ) : TickResult n :=
  let t := tradePhase n a outcome price slip
  let r := riskPhase n t.1 price
  { account := r.1
    decision := t.2.1
    executed := t.2.2.1
    fee := t.2.2.2
    cashoutEvent := r.2.1
    emergencyEvent := r.2.2 }

/-- The agent loop of `_loop`: agents are processed sequentially and
independently against the same shared price snapshot, each from its own
account dict and its own strategy outcome. -/
def tickAll (n : ℕ) (accounts : List (Account n))
    (outcomes : List StratOutcome) (price : Fin n → ℚ) (slip : ℚ) :
    List (TickResult n) :=
  List.zipWith (fun a o => agentTick n a o price slip) accounts outcomes

/-! ### Helper lemmas -/

/-- Summing the zero function gives zero. -/
theorem sumQ_zero (n : ℕ) (f : Fin n → ℚ) (h : ∀ i, f i = 0) : sumQ n f = 0 := by
  unfold sumQ
  induction List.finRange n with
  | nil => rfl
  | cons x xs ih => simp [List.foldr_cons, h, ih]

/-- Summing the constant-zero function gives zero. -/
theorem sumQ_const_zero (n : ℕ) : sumQ n (fun _ => (0 : ℚ)) = 0 :=
  sumQ_zero n _ (fun _ => rfl)

/-- After the risk phase, the recorded equity is cash plus the
mark-to-market value of the portfolio. -/
theorem riskPhase_equity (n : ℕ) (b : Account n) (price : Fin n → ℚ) :
    (riskPhase n b price).1.equity =
      (riskPhase n b price).1.cash +
        sumQ n (fun s => (riskPhase n b price).1.portfolio s * price s) := by
  simp only [riskPhase]
  split_ifs <;> simp [markEquity, sumQ_const_zero]

/-- C1.  For every account and every tick, after the agent's execution and
risk steps complete, the recorded equity equals cash plus the sum over all
symbols of the holdings times the current price (exactly, in the rational
model). -/
theorem C1_equity_identity (n : ℕ) (a : Account n) (outcome : StratOutcome)
    (price : Fin n → ℚ) (slip : ℚ) :
    (agentTick n a outcome price slip).account.equity =
      (agentTick n a outcome price slip).account.cash +
        sumQ n (fun s =>
          (agentTick n a outcome price slip).account.portfolio s * price s) :=
  riskPhase_equity n (tradePhase n a outcome price slip).1 price

/-- Evaluating a one-symbol sum. -/
theorem sumQ_one (f : Fin 1 → ℚ) : sumQ 1 f = f 0 :=
  Eq.trans (by rfl) (add_zero (f 0))

/-- `_execute_order` never touches the `cashed_out` total. -/
theorem executeOrder_cashed_out (n : ℕ) (a : Account n) (d : Decision)
    (symbol : Option (Fin n)) (q : ℚ) (price : Fin n → ℚ) (slip : ℚ) :
    (executeOrder n a d symbol q price slip).1.cashed_out = a.cashed_out := by
  cases symbol with
  | none => rfl
  | some sym =>
      simp only [executeOrder, buyExec, sellExec]
      split_ifs <;> rfl

/-- The trading phase never touches the `cashed_out` total. -/
theorem tradePhase_cashed_out (n : ℕ) (a : Account n) (outcome : StratOutcome)
    (price : Fin n → ℚ) (slip : ℚ) :
    (tradePhase n a outcome price slip).1.cashed_out = a.cashed_out := by
  cases outcome with
  | raises => rfl
  | returns d s q => exact executeOrder_cashed_out n a _ _ _ price slip

/-- The cash-out branch of the risk phase: when the freshly computed ROI is
at or above the threshold, the account is reset to the baseline with no
positions, entry prices cleared, the profit banked, and the cash-out event
raised. -/
theorem riskPhase_cashout (n : ℕ) (b : Account n) (price : Fin n → ℚ)
    (h : CASHOUT_THRESHOLD ≤ (markEquity n b price - 100) / 100 * 100) :
    (riskPhase n b price).1.cash = STARTING_EQUITY ∧
    (riskPhase n b price).1.equity = STARTING_EQUITY ∧
    (∀ s, (riskPhase n b price).1.portfolio s = 0) ∧
    (∀ s, (riskPhase n b price).1.entry_prices s = none) ∧
    (riskPhase n b price).1.cashed_out =
      b.cashed_out + (markEquity n b price - STARTING_EQUITY) ∧
    (riskPhase n b price).2.1 = true := by
  simp only [riskPhase, if_pos h]
  norm_num [EMERGENCY_STOP_LOSS, STARTING_EQUITY]

/-- C3.  When an account's ROI at the risk step is at or above the cash-out
threshold (0.50%), every position is liquidated, `cashed_out` grows by
exactly the equity at trigger minus the 100 baseline, cash and equity are
reset to the baseline, holdings are zero and entry prices are cleared. -/
theorem C3_cashout_reset (n : ℕ) (a : Account n) (outcome : StratOutcome)
    (price : Fin n → ℚ) (slip : ℚ)
    (h : CASHOUT_THRESHOLD ≤
      (markEquity n (tradePhase n a outcome price slip).1 price - 100) / 100 * 100) :
    (agentTick n a outcome price slip).account.cash = STARTING_EQUITY ∧
    (agentTick n a outcome price slip).account.equity = STARTING_EQUITY ∧
    (∀ s, (agentTick n a outcome price slip).account.portfolio s = 0) ∧
    (∀ s, (agentTick n a outcome price slip).account.entry_prices s = none) ∧
    (agentTick n a outcome price slip).account.cashed_out =
      a.cashed_out +
        (markEquity n (tradePhase n a outcome price slip).1 price - STARTING_EQUITY) ∧
    (agentTick n a outcome price slip).cashoutEvent = true := by
  have base := riskPhase_cashout n (tradePhase n a outcome price slip).1 price h
  have hco := tradePhase_cashed_out n a outcome price slip
  refine ⟨base.1, base.2.1, base.2.2.1, base.2.2.2.1, ?_, base.2.2.2.2.2⟩
  calc (agentTick n a outcome price slip).account.cashed_out
      = (tradePhase n a outcome price slip).1.cashed_out +
          (markEquity n (tradePhase n a outcome price slip).1 price -
            STARTING_EQUITY) := base.2.2.2.2.1
    _ = a.cashed_out +
          (markEquity n (tradePhase n a outcome price slip).1 price -
            STARTING_EQUITY) := by rw [hco]

/-- Witness for C3 at a concrete input: one symbol, a raising strategy, an
account whose cash alone puts ROI at +1%. -/
theorem C3_cashout_reset_witness :
    CASHOUT_THRESHOLD ≤
      (markEquity 1
        (tradePhase 1 ⟨101, 0, 0, fun _ => 0, fun _ => none, 0, 0, 0, 0⟩
          .raises (fun _ => 1) 0).1 (fun _ => 1) - 100) / 100 * 100 ∧
    (agentTick 1 ⟨101, 0, 0, fun _ => 0, fun _ => none, 0, 0, 0, 0⟩
      .raises (fun _ => 1) 0).account.cash = STARTING_EQUITY ∧
    (agentTick 1 ⟨101, 0, 0, fun _ => 0, fun _ => none, 0, 0, 0, 0⟩
      .raises (fun _ => 1) 0).account.portfolio 0 = 0 :=
  have h : CASHOUT_THRESHOLD ≤
      (markEquity 1
        (tradePhase 1 ⟨101, 0, 0, fun _ => 0, fun _ => none, 0, 0, 0, 0⟩
          .raises (fun _ => 1) 0).1 (fun _ => 1) - 100) / 100 * 100 := by
    norm_num [tradePhase, markEquity, sumQ_one, CASHOUT_THRESHOLD]
  ⟨h,
   (C3_cashout_reset 1 ⟨101, 0, 0, fun _ => 0, fun _ => none, 0, 0, 0, 0⟩
      .raises (fun _ => 1) 0 h).1,
   (C3_cashout_reset 1 ⟨101, 0, 0, fun _ => 0, fun _ => none, 0, 0, 0, 0⟩
      .raises (fun _ => 1) 0 h).2.2.1 0⟩

/-- The emergency branch of the risk phase: when the freshly computed ROI is
at or below the stop-loss threshold, every position is zeroed, entry prices
are cleared and the emergency event is raised. -/
theorem riskPhase_emergency (n : ℕ) (b : Account n) (price : Fin n → ℚ)
    (h : (markEquity n b price - 100) / 100 * 100 ≤ EMERGENCY_STOP_LOSS) :
    (∀ s, (riskPhase n b price).1.portfolio s = 0) ∧
    (∀ s, (riskPhase n b price).1.entry_prices s = none) ∧
    (riskPhase n b price).2.2 = true := by
  have hno : ¬ CASHOUT_THRESHOLD ≤ (markEquity n b price - 100) / 100 * 100 := by
    rw [CASHOUT_THRESHOLD]
    rw [EMERGENCY_STOP_LOSS] at h
    linarith
  refine ⟨fun s => ?_, fun s => ?_, ?_⟩
  all_goals
    simp only [riskPhase]
    split_ifs
    rfl

/-- C4.  When an account's ROI at the risk step is at or below the emergency
threshold (-2.0%), immediately afterwards all holdings are zero and entry
prices are cleared, whatever the strategy's intent was that tick, and the
emergency-stop event is emitted. -/
theorem C4_emergency_stop (n : ℕ) (a : Account n) (outcome : StratOutcome)
    (price : Fin n → ℚ) (slip : ℚ)
    (h : (markEquity n (tradePhase n a outcome price slip).1 price - 100) /
        100 * 100 ≤ EMERGENCY_STOP_LOSS) :
    (∀ s, (agentTick n a outcome price slip).account.portfolio s = 0) ∧
    (∀ s, (agentTick n a outcome price slip).account.entry_prices s = none) ∧
    (agentTick n a outcome price slip).emergencyEvent = true :=
  riskPhase_emergency n (tradePhase n a outcome price slip).1 price h

/-- Witness for C4 at a concrete input: one symbol, a raising strategy, an
account whose cash alone puts ROI at -10%. -/
theorem C4_emergency_stop_witness :
    (markEquity 1
      (tradePhase 1 ⟨90, 0, 0, fun _ => 0, fun _ => none, 0, 0, 0, 0⟩
        .raises (fun _ => 1) 0).1 (fun _ => 1) - 100) / 100 * 100 ≤
      EMERGENCY_STOP_LOSS ∧
    (agentTick 1 ⟨90, 0, 0, fun _ => 0, fun _ => none, 0, 0, 0, 0⟩
      .raises (fun _ => 1) 0).account.portfolio 0 = 0 ∧
    (agentTick 1 ⟨90, 0, 0, fun _ => 0, fun _ => none, 0, 0, 0, 0⟩
      .raises (fun _ => 1) 0).emergencyEvent = true :=
  have h : (markEquity 1
      (tradePhase 1 ⟨90, 0, 0, fun _ => 0, fun _ => none, 0, 0, 0, 0⟩
        .raises (fun _ => 1) 0).1 (fun _ => 1) - 100) / 100 * 100 ≤
      EMERGENCY_STOP_LOSS := by
    norm_num [tradePhase, markEquity, sumQ_one, EMERGENCY_STOP_LOSS]
  ⟨h,
   (C4_emergency_stop 1 ⟨90, 0, 0, fun _ => 0, fun _ => none, 0, 0, 0, 0⟩
      .raises (fun _ => 1) 0 h).1 0,
   (C4_emergency_stop 1 ⟨90, 0, 0, fun _ => 0, fun _ => none, 0, 0, 0, 0⟩
      .raises (fun _ => 1) 0 h).2.2⟩

/-- C10.  A SELL against an open long position always executes: the
closing-long path of `_execute_order` performs no cash or leverage check,
so the position simply becomes `holdings - quantity` (a short of size
`quantity - holdings` when the quantity exceeds the position) and the
proceeds net of fee are credited, with no short-side leverage bound
applied. -/
theorem C10_closing_long_always_fills (n : ℕ) (a : Account n) (sym : Fin n)
    (q : ℚ) (price : Fin n → ℚ) (slip : ℚ)
    (hpos : 0 < a.portfolio sym) (hq : 0 < q) (hp : 0 < price sym) :
    (executeOrder n a .SELL (some sym) q price slip).2.1 = true ∧
    (executeOrder n a .SELL (some sym) q price slip).1.portfolio sym =
      a.portfolio sym - q ∧
    (executeOrder n a .SELL (some sym) q price slip).1.cash =
      a.cash + (q * (price sym * (1 - slip)) -
        q * (price sym * (1 - slip)) * feeRate) := by
  have hA : ¬ (False ∨ q ≤ 0) := by simpa using not_le.mpr hq
  have hB : ¬ price sym ≤ 0 := not_le.mpr hp
  have hC : ¬ False := not_false
  have hD : ¬ a.portfolio sym ≤ 0 := not_le.mpr hpos
  simp only [executeOrder, sellExec]
  split_ifs
  all_goals refine ⟨rfl, ?_, rfl⟩
  all_goals simp

/-- Witness for C10: a long of 1 unit sold for a quantity of 5 flips to a
short of 4 with no leverage check, even though the account has no cash. -/
theorem C10_closing_long_always_fills_witness :
    (0 : ℚ) < 1 ∧ (0 : ℚ) < 5 ∧ (0 : ℚ) < 100 ∧
    (executeOrder 1 ⟨0, 0, 0, fun _ => 1, fun _ => none, 0, 0, 0, 0⟩ .SELL
      (some 0) 5 (fun _ => 100) (1 / 10000)).2.1 = true ∧
    (executeOrder 1 ⟨0, 0, 0, fun _ => 1, fun _ => none, 0, 0, 0, 0⟩ .SELL
      (some 0) 5 (fun _ => 100) (1 / 10000)).1.portfolio 0 = -4 :=
  have h := C10_closing_long_always_fills 1
    ⟨0, 0, 0, fun _ => 1, fun _ => none, 0, 0, 0, 0⟩ 0 5 (fun _ => 100)
    (1 / 10000) (by norm_num) (by norm_num) (by norm_num)
  ⟨by norm_num, by norm_num, by norm_num, h.1, h.2.1.trans (by norm_num)⟩

/-- C5, counterexample.  An account short one unit with zero cash sends a
covering BUY for exactly the position size at a positive price, and the
Ledger rejects it: the cover path still demands `cash >= cost + fee`, so the
claim that a cover is always filled is false. -/
theorem C5_counterexample :
    (⟨0, 0, 0, fun _ => -1, fun _ => some 100, 0, 0, 0, 0⟩ : Account 1).portfolio 0 < 0 ∧
    (0 : ℚ) < 1 ∧ (1 : ℚ) ≤ 1 ∧
    (executeOrder 1 ⟨0, 0, 0, fun _ => -1, fun _ => some 100, 0, 0, 0, 0⟩ .BUY
      (some 0) 1 (fun _ => 100) (1 / 10000)).2.1 = false := by
  refine ⟨by norm_num, by norm_num, le_refl 1, ?_⟩
  norm_num [executeOrder, buyExec, markEquity, longValue, sumQ_one, feeRate]

/-- C5, amended.  A covering BUY (current position short) bypasses the
buying-power check entirely, but is filled only when cash covers
`cost + fee`; under that cash condition it always fills, for any quantity up
to the position size. -/
theorem C5_cover_fills_with_cash (n : ℕ) (a : Account n) (sym : Fin n)
    (q : ℚ) (price : Fin n → ℚ) (slip : ℚ)
    (hshort : a.portfolio sym < 0) (hq : 0 < q)
    (hqle : q ≤ -(a.portfolio sym)) (hp : 0 < price sym)
    (hcash : q * (price sym * (1 + slip)) +
      q * (price sym * (1 + slip)) * feeRate ≤ a.cash) :
    (executeOrder n a .BUY (some sym) q price slip).2.1 = true ∧
    (executeOrder n a .BUY (some sym) q price slip).1.portfolio sym =
      a.portfolio sym + q := by
  have hA : ¬ (False ∨ q ≤ 0) := by simpa using not_le.mpr hq
  have hB : ¬ price sym ≤ 0 := not_le.mpr hp
  simp only [executeOrder, buyExec]
  split_ifs
  all_goals refine ⟨rfl, ?_⟩
  all_goals simp

/-- Witness for the amended C5: covering one unit of a short with ample
cash fills and brings the position to flat. -/
theorem C5_cover_fills_with_cash_witness :
    (⟨1000, 0, 0, fun _ => -1, fun _ => some 100, 0, 0, 0, 0⟩ : Account 1).portfolio 0 < 0 ∧
    (executeOrder 1 ⟨1000, 0, 0, fun _ => -1, fun _ => some 100, 0, 0, 0, 0⟩ .BUY
      (some 0) 1 (fun _ => 100) (1 / 10000)).2.1 = true ∧
    (executeOrder 1 ⟨1000, 0, 0, fun _ => -1, fun _ => some 100, 0, 0, 0, 0⟩ .BUY
      (some 0) 1 (fun _ => 100) (1 / 10000)).1.portfolio 0 = 0 :=
  have h := C5_cover_fills_with_cash 1
    ⟨1000, 0, 0, fun _ => -1, fun _ => some 100, 0, 0, 0, 0⟩ 0 1
    (fun _ => 100) (1 / 10000) (by norm_num) (by norm_num) (by norm_num)
    (by norm_num) (by norm_num [feeRate])
  ⟨by norm_num, h.1, h.2.trans (by norm_num)⟩

/-- A BUY on a flat-or-long symbol with insufficient cash is rejected and
returns the account untouched. -/
theorem buy_cash_reject (n : ℕ) (a : Account n) (sym : Fin n) (q : ℚ)
    (price : Fin n → ℚ) (slip : ℚ)
    (hcurr : ¬ a.portfolio sym < 0)
    (hcash : a.cash < q * (price sym * (1 + slip)) +
      q * (price sym * (1 + slip)) * feeRate) :
    executeOrder n a .BUY (some sym) q price slip = (a, false, 0) := by
  have hno : ¬ (q * (price sym * (1 + slip)) ≤
        markEquity n a price * 4 - longValue n a price ∧
      q * (price sym * (1 + slip)) + q * (price sym * (1 + slip)) * feeRate ≤
        a.cash) :=
    fun hc => absurd hc.2 (not_le.mpr hcash)
  simp only [executeOrder, buyExec]
  split_ifs <;> rfl

/-- C6, counterexample.  A SELL opening a short that breaches the short-side
leverage bound is rejected, yet the trade counter still increments: the
rejection is not a complete no-op on the account's counters. -/
theorem C6_counterexample :
    (executeOrder 1 ⟨0, 0, 0, fun _ => 0, fun _ => none, 0, 5, 0, 0⟩ .SELL
      (some 0) 1 (fun _ => 100) (1 / 10000)).2.1 = false ∧
    (executeOrder 1 ⟨0, 0, 0, fun _ => 0, fun _ => none, 0, 5, 0, 0⟩ .SELL
      (some 0) 1 (fun _ => 100) (1 / 10000)).1.trades_count = 6 := by
  norm_num [executeOrder, sellExec, markEquity, shortValue, sumQ_one, feeRate]
  exact ⟨rfl, rfl⟩

/-- C6, amended.  A rejected BUY is a complete silent no-op (the account is
returned unchanged); a rejected SELL leaves cash, holdings, entry prices,
fee total and win count unchanged but may increment the trade counter; and
in the spec's scenario (cash 100, price 100, fee 0.00075, quantity 1, any
non-negative slippage) the BUY needs at least 100.075 and is rejected with
the account unchanged. -/
theorem C6_reject_noop (n : ℕ) (a : Account n) (sym : Fin n) (q : ℚ)
    (price : Fin n → ℚ) (slip : ℚ) :
    ((executeOrder n a .BUY (some sym) q price slip).2.1 = false →
      (executeOrder n a .BUY (some sym) q price slip).1 = a) ∧
    ((executeOrder n a .SELL (some sym) q price slip).2.1 = false →
      (executeOrder n a .SELL (some sym) q price slip).1.cash = a.cash ∧
      (executeOrder n a .SELL (some sym) q price slip).1.portfolio = a.portfolio ∧
      (executeOrder n a .SELL (some sym) q price slip).1.entry_prices = a.entry_prices ∧
      (executeOrder n a .SELL (some sym) q price slip).1.total_fees = a.total_fees ∧
      (executeOrder n a .SELL (some sym) q price slip).1.wins = a.wins ∧
      ((executeOrder n a .SELL (some sym) q price slip).1.trades_count = a.trades_count ∨
       (executeOrder n a .SELL (some sym) q price slip).1.trades_count = a.trades_count + 1)) ∧
    (∀ s : ℚ, 0 ≤ s →
      (executeOrder 1 ⟨100, 100, 0, fun _ => 0, fun _ => none, 0, 0, 0, 0⟩ .BUY
        (some 0) 1 (fun _ => 100) s).2.1 = false ∧
      (executeOrder 1 ⟨100, 100, 0, fun _ => 0, fun _ => none, 0, 0, 0, 0⟩ .BUY
        (some 0) 1 (fun _ => 100) s).1 =
        ⟨100, 100, 0, fun _ => 0, fun _ => none, 0, 0, 0, 0⟩) := by
  have hsellbuy : ¬ Decision.SELL = Decision.BUY := fun hc => Decision.noConfusion hc
  refine ⟨?_, ?_, ?_⟩
  · intro h
    by_cases hg1 : Decision.BUY = Decision.HOLD ∨ q ≤ 0
    · simp only [executeOrder, if_pos hg1]
    · by_cases hg2 : price sym ≤ 0
      · simp only [executeOrder, if_neg hg1, if_pos hg2]
      · by_cases hcur : a.portfolio sym < 0
        · by_cases hcash : q * (price sym * (1 + slip)) +
              q * (price sym * (1 + slip)) * feeRate ≤ a.cash
          · exfalso
            have ht : (executeOrder n a .BUY (some sym) q price slip).2.1 = true := by
              simp only [executeOrder, buyExec, if_neg hg1, if_neg hg2,
                if_pos (rfl : Decision.BUY = Decision.BUY), if_true, if_pos hcur, if_pos hcash]
            rw [ht] at h
            exact Bool.noConfusion h
          · simp only [executeOrder, buyExec, if_neg hg1, if_neg hg2,
              if_pos (rfl : Decision.BUY = Decision.BUY), if_true, if_pos hcur, if_neg hcash]
        · by_cases hcb : q * (price sym * (1 + slip)) ≤
              markEquity n a price * 4 - longValue n a price ∧
              q * (price sym * (1 + slip)) +
                q * (price sym * (1 + slip)) * feeRate ≤ a.cash
          · exfalso
            have ht : (executeOrder n a .BUY (some sym) q price slip).2.1 = true := by
              simp only [executeOrder, buyExec, if_neg hg1, if_neg hg2,
                if_pos (rfl : Decision.BUY = Decision.BUY), if_true, if_neg hcur, if_pos hcb]
            rw [ht] at h
            exact Bool.noConfusion h
          · simp only [executeOrder, buyExec, if_neg hg1, if_neg hg2,
              if_pos (rfl : Decision.BUY = Decision.BUY), if_true, if_neg hcur, if_neg hcb]
  · intro h
    by_cases hg1 : Decision.SELL = Decision.HOLD ∨ q ≤ 0
    · simp only [executeOrder, if_pos hg1]
      simp
    · by_cases hg2 : price sym ≤ 0
      · simp only [executeOrder, if_neg hg1, if_pos hg2]
        simp
      · by_cases hcur : a.portfolio sym ≤ 0
        · by_cases hcap : q * (price sym * (1 - slip)) ≤
              markEquity n a price * 4 - shortValue n a price
          · exfalso
            have ht : (executeOrder n a .SELL (some sym) q price slip).2.1 = true := by
              simp only [executeOrder, sellExec, if_neg hg1, if_neg hg2,
                if_neg hsellbuy, if_pos hcur, if_pos hcap]
            rw [ht] at h
            exact Bool.noConfusion h
          · have he : executeOrder n a .SELL (some sym) q price slip =
                ({ a with
                    wins := if 0 < a.portfolio sym ∧
                        0 < (a.entry_prices sym).getD 0 ∧
                        (a.entry_prices sym).getD 0 < price sym * (1 - slip)
                      then a.wins + 1 else a.wins
                    trades_count := a.trades_count + 1 }, false, 0) := by
              simp only [executeOrder, sellExec, if_neg hg1, if_neg hg2,
                if_neg hsellbuy, if_pos hcur, if_neg hcap]
            rw [he]
            refine ⟨rfl, rfl, rfl, rfl, ?_, Or.inr rfl⟩
            exact if_neg (fun hc => absurd hc.1 (not_lt.mpr hcur))
        · exfalso
          have ht : (executeOrder n a .SELL (some sym) q price slip).2.1 = true := by
            simp only [executeOrder, sellExec, if_neg hg1, if_neg hg2,
              if_neg hsellbuy, if_neg hcur]
          rw [ht] at h
          exact Bool.noConfusion h
  · intro s hs
    have hcash : (⟨100, 100, 0, fun _ => 0, fun _ => none, 0, 0, 0, 0⟩ :
        Account 1).cash < 1 * (100 * (1 + s)) + 1 * (100 * (1 + s)) * feeRate := by
      show (100 : ℚ) < _
      rw [feeRate]
      nlinarith
    have hr := buy_cash_reject 1 ⟨100, 100, 0, fun _ => 0, fun _ => none, 0, 0, 0, 0⟩
      0 1 (fun _ => 100) s (by norm_num) hcash
    exact ⟨by rw [hr], by rw [hr]⟩

/-- Witness for the amended C6 at concrete inputs: a leverage-rejected SELL
keeps cash and holdings and bumps the trade counter, and the spec's BUY
scenario at zero slippage is rejected unchanged. -/
theorem C6_reject_noop_witness :
    ((executeOrder 1 ⟨0, 0, 0, fun _ => 0, fun _ => none, 0, 5, 0, 0⟩ .SELL
        (some 0) 1 (fun _ => 100) (1 / 10000)).2.1 = false) ∧
    (executeOrder 1 ⟨0, 0, 0, fun _ => 0, fun _ => none, 0, 5, 0, 0⟩ .SELL
      (some 0) 1 (fun _ => 100) (1 / 10000)).1.cash = 0 ∧
    (0 : ℚ) ≤ 0 ∧
    (executeOrder 1 ⟨100, 100, 0, fun _ => 0, fun _ => none, 0, 0, 0, 0⟩ .BUY
      (some 0) 1 (fun _ => 100) 0).2.1 = false :=
  have hrej : (executeOrder 1 ⟨0, 0, 0, fun _ => 0, fun _ => none, 0, 5, 0, 0⟩ .SELL
      (some 0) 1 (fun _ => 100) (1 / 10000)).2.1 = false := by
    norm_num [executeOrder, sellExec, markEquity, shortValue, sumQ_one, feeRate]
    rfl
  ⟨hrej,
   ((C6_reject_noop 1 ⟨0, 0, 0, fun _ => 0, fun _ => none, 0, 5, 0, 0⟩ 0 1
      (fun _ => 100) (1 / 10000)).2.1 hrej).1,
   le_refl 0,
   ((C6_reject_noop 1 ⟨0, 0, 0, fun _ => 0, fun _ => none, 0, 5, 0, 0⟩ 0 1
      (fun _ => 100) (1 / 10000)).2.2 0 (le_refl 0)).1⟩

/-- C7, counterexample.  A BUY with the negative (hence not non-negative)
numeric quantity -1 and a known symbol passes validation with its decision
intact: the intent is not coerced to HOLD. -/
theorem C7_counterexample :
    (-1 : ℚ) < 0 ∧
    (validateIntent 1 .BUY (some 0) (.num (-1))).1 = .BUY ∧
    ¬ (validateIntent 1 .BUY (some 0) (.num (-1))).1 = .HOLD := by
  refine ⟨by norm_num, rfl, ?_⟩
  intro hc
  exact Decision.noConfusion hc

/-- C7, amended.  A non-numeric quantity or an unknown (or missing) symbol
coerces a BUY/SELL intent to HOLD; a HOLD reaching the Ledger is a no-op;
and a numeric but non-positive quantity is not coerced to HOLD, yet no
order is executed for it either, the Ledger returning the account
unchanged. -/
theorem C7_validation (n : ℕ) :
    (∀ (d : Decision) (symbol : Option ℕ),
      (validateIntent n d symbol .nonNum).1 = .HOLD) ∧
    (∀ (d : Decision) (s : ℕ) (q : RawQty), n ≤ s →
      (validateIntent n d (some s) q).1 = .HOLD) ∧
    (∀ (d : Decision) (q : RawQty), (validateIntent n d none q).1 = .HOLD) ∧
    (∀ (a : Account n) (symbol : Option (Fin n)) (q : ℚ)
        (price : Fin n → ℚ) (slip : ℚ),
      executeOrder n a .HOLD symbol q price slip = (a, false, 0)) ∧
    (∀ (a : Account n) (d : Decision) (sym : Fin n) (q : ℚ)
        (price : Fin n → ℚ) (slip : ℚ), q ≤ 0 →
      executeOrder n a d (some sym) q price slip = (a, false, 0)) := by
  refine ⟨?_, ?_, ?_, ?_, ?_⟩
  · intro d symbol
    cases symbol with
    | none => cases d <;> rfl
    | some s =>
        by_cases h : s < n <;> cases d <;> simp [validateIntent, h]
  · intro d s q h
    have h' : ¬ s < n := not_lt.mpr h
    cases d <;> cases q <;> simp [validateIntent, h']
  · intro d q
    cases d <;> cases q <;> rfl
  · intro a symbol q price slip
    cases symbol <;> rfl
  · intro a d sym q price slip h
    simp only [executeOrder, if_pos (Or.inr h : d = .HOLD ∨ q ≤ 0)]

/-- Witness for the amended C7: an out-of-range symbol index coerces a BUY
to HOLD, and a negative-quantity SELL leaves the account untouched. -/
theorem C7_validation_witness :
    1 ≤ 5 ∧ (validateIntent 1 .BUY (some 5) (.num 2)).1 = .HOLD ∧
    (-1 : ℚ) ≤ 0 ∧
    executeOrder 1 ⟨100, 100, 0, fun _ => 0, fun _ => none, 0, 0, 0, 0⟩ .SELL
      (some 0) (-1) (fun _ => 100) 0 =
      (⟨100, 100, 0, fun _ => 0, fun _ => none, 0, 0, 0, 0⟩, false, 0) :=
  ⟨by norm_num,
   (C7_validation 1).2.1 .BUY 5 (.num 2) (by norm_num),
   by norm_num,
   (C7_validation 1).2.2.2.2 ⟨100, 100, 0, fun _ => 0, fun _ => none, 0, 0, 0, 0⟩
     .SELL 0 (-1) (fun _ => 100) 0 (by norm_num)⟩

/-- If a BUY reached the Ledger and filled, the guards all passed, so the
whole order equals its BUY branch. -/
theorem executeOrder_buy_reduce (n : ℕ) (a : Account n) (sym : Fin n) (q : ℚ)
    (price : Fin n → ℚ) (slip : ℚ)
    (h : (executeOrder n a .BUY (some sym) q price slip).2.1 = true) :
    executeOrder n a .BUY (some sym) q price slip = buyExec n a sym q price slip := by
  simp only [executeOrder] at h ⊢
  split_ifs at h ⊢ with g1 g2 g3 <;>
    first
      | rfl
      | exact Bool.noConfusion h
      | exact absurd rfl g3
      | contradiction

/-- If a SELL reached the Ledger and filled, the guards all passed, so the
whole order equals its SELL branch. -/
theorem executeOrder_sell_reduce (n : ℕ) (a : Account n) (sym : Fin n) (q : ℚ)
    (price : Fin n → ℚ) (slip : ℚ)
    (h : (executeOrder n a .SELL (some sym) q price slip).2.1 = true) :
    executeOrder n a .SELL (some sym) q price slip = sellExec n a sym q price slip := by
  simp only [executeOrder] at h ⊢
  split_ifs at h ⊢ with g1 g2 g3 <;>
    first
      | rfl
      | exact Bool.noConfusion h
      | exact Decision.noConfusion g3
      | contradiction

/-- A filled order had a positive quantity and a positive mark price. -/
theorem executeOrder_pos (n : ℕ) (a : Account n) (d : Decision) (sym : Fin n)
    (q : ℚ) (price : Fin n → ℚ) (slip : ℚ)
    (h : (executeOrder n a d (some sym) q price slip).2.1 = true) :
    0 < q ∧ 0 < price sym := by
  simp only [executeOrder] at h
  split_ifs at h with g1 g2 g3 <;>
    first
      | exact Bool.noConfusion h
      | exact ⟨not_le.mp fun hc => g1 (Or.inr hc), not_le.mp g2⟩
      | contradiction

/-- The entry-price map a filled BUY leaves behind, written out with the
same sign analysis the code performs. -/
theorem buyExec_entry_of_filled (n : ℕ) (a : Account n) (sym : Fin n) (q : ℚ)
    (price : Fin n → ℚ) (slip : ℚ)
    (h : (buyExec n a sym q price slip).2.1 = true) :
    (buyExec n a sym q price slip).1.entry_prices =
      (if a.portfolio sym < 0 then
        if 0 ≤ a.portfolio sym + q then
          Function.update a.entry_prices sym
            (if 0 < a.portfolio sym + q then some (price sym * (1 + slip)) else none)
        else a.entry_prices
      else
        if 0 < a.portfolio sym + q then
          if 0 < a.portfolio sym ∧ 0 < (a.entry_prices sym).getD 0 then
            Function.update a.entry_prices sym
              (some ((a.portfolio sym * (a.entry_prices sym).getD 0 +
                q * (price sym * (1 + slip))) / (a.portfolio sym + q)))
          else Function.update a.entry_prices sym (some (price sym * (1 + slip)))
        else a.entry_prices) := by
  simp only [buyExec] at h ⊢
  split_ifs at h ⊢ <;> first | rfl | exact Bool.noConfusion h

/-- The entry-price map a filled SELL leaves behind, written out with the
same sign analysis the code performs. -/
theorem sellExec_entry_of_filled (n : ℕ) (a : Account n) (sym : Fin n) (q : ℚ)
    (price : Fin n → ℚ) (slip : ℚ)
    (h : (sellExec n a sym q price slip).2.1 = true) :
    (sellExec n a sym q price slip).1.entry_prices =
      (if a.portfolio sym ≤ 0 then
        if a.portfolio sym = 0 then
          Function.update a.entry_prices sym (some (price sym * (1 - slip)))
        else a.entry_prices
      else
        if a.portfolio sym - q ≤ 0 then
          Function.update a.entry_prices sym
            (if a.portfolio sym - q < 0 then some (price sym * (1 - slip)) else none)
        else a.entry_prices) := by
  simp only [sellExec] at h ⊢
  split_ifs at h ⊢ <;> first | rfl | exact Bool.noConfusion h

/-- C8, counterexample.  Adding to an existing short keeps the old entry
price instead of recomputing a notional-weighted average: a short of 1 at
entry 100 that shorts 1 more at fill price 99.99 keeps entry 100, not the
weighted 99.995. -/
theorem C8_counterexample :
    (executeOrder 1 ⟨1000, 0, 0, fun _ => -1, fun _ => some 100, 0, 0, 0, 0⟩ .SELL
      (some 0) 1 (fun _ => 100) (1 / 10000)).2.1 = true ∧
    (executeOrder 1 ⟨1000, 0, 0, fun _ => -1, fun _ => some 100, 0, 0, 0, 0⟩ .SELL
      (some 0) 1 (fun _ => 100) (1 / 10000)).1.entry_prices 0 = some 100 ∧
    ¬ (100 : ℚ) = (1 * 100 + 1 * (100 * (1 - 1 / 10000))) / (1 + 1) := by
  refine ⟨?_, ?_, by norm_num⟩ <;>
    norm_num [executeOrder, sellExec, markEquity, shortValue, sumQ_one, feeRate] <;>
    rfl

/-- C8, amended.  Entry-price bookkeeping on a successful fill: a fresh long
or short records the fill price; adding to a long records the
notional-weighted average entry; adding to a short keeps the existing entry
unchanged (no weighted average); fully closing a position clears its entry;
flipping direction records the fill price as the new entry (covering a short
partway keeps the old entry). -/
theorem C8_entry_bookkeeping (n : ℕ) (a : Account n) (sym : Fin n) (q : ℚ)
    (price : Fin n → ℚ) (slip : ℚ) :
    ((executeOrder n a .BUY (some sym) q price slip).2.1 = true →
      (a.portfolio sym = 0 →
        (executeOrder n a .BUY (some sym) q price slip).1.entry_prices sym =
          some (price sym * (1 + slip))) ∧
      (0 < a.portfolio sym → 0 < (a.entry_prices sym).getD 0 →
        (executeOrder n a .BUY (some sym) q price slip).1.entry_prices sym =
          some ((a.portfolio sym * (a.entry_prices sym).getD 0 +
            q * (price sym * (1 + slip))) / (a.portfolio sym + q))) ∧
      (a.portfolio sym < 0 → a.portfolio sym + q = 0 →
        (executeOrder n a .BUY (some sym) q price slip).1.entry_prices sym = none) ∧
      (a.portfolio sym < 0 → 0 < a.portfolio sym + q →
        (executeOrder n a .BUY (some sym) q price slip).1.entry_prices sym =
          some (price sym * (1 + slip))) ∧
      (a.portfolio sym < 0 → a.portfolio sym + q < 0 →
        (executeOrder n a .BUY (some sym) q price slip).1.entry_prices sym =
          a.entry_prices sym)) ∧
    ((executeOrder n a .SELL (some sym) q price slip).2.1 = true →
      (a.portfolio sym = 0 →
        (executeOrder n a .SELL (some sym) q price slip).1.entry_prices sym =
          some (price sym * (1 - slip))) ∧
      (a.portfolio sym < 0 →
        (executeOrder n a .SELL (some sym) q price slip).1.entry_prices sym =
          a.entry_prices sym) ∧
      (0 < a.portfolio sym → a.portfolio sym - q = 0 →
        (executeOrder n a .SELL (some sym) q price slip).1.entry_prices sym = none) ∧
      (0 < a.portfolio sym → a.portfolio sym - q < 0 →
        (executeOrder n a .SELL (some sym) q price slip).1.entry_prices sym =
          some (price sym * (1 - slip))) ∧
      (0 < a.portfolio sym → 0 < a.portfolio sym - q →
        (executeOrder n a .SELL (some sym) q price slip).1.entry_prices sym =
          a.entry_prices sym)) := by
  constructor
  · intro h
    have hq := (executeOrder_pos n a .BUY sym q price slip h).1
    have hred := executeOrder_buy_reduce n a sym q price slip h
    have hb : (buyExec n a sym q price slip).2.1 = true := by
      rw [hred] at h
      exact h
    have hent := buyExec_entry_of_filled n a sym q price slip hb
    rw [hred] at h ⊢
    rw [hent]
    refine ⟨?_, ?_, ?_, ?_, ?_⟩
    · intro h0
      have h1 : ¬ a.portfolio sym < 0 := by
        rw [h0]
        exact lt_irrefl 0
      simp [h0, h1, hq, Function.update_same]
    · intro hpos hentry
      have h1 : ¬ a.portfolio sym < 0 := not_lt.mpr hpos.le
      have h2 : 0 < a.portfolio sym + q := add_pos hpos hq
      simp [h1, h2, hpos, hentry, Function.update_same]
    · intro hneg hzero
      simp [hneg, hzero, Function.update_same]
    · intro hneg hposnew
      simp [hneg, hposnew.le, hposnew, Function.update_same]
    · intro hneg hnegnew
      have h2 : ¬ 0 ≤ a.portfolio sym + q := not_le.mpr hnegnew
      simp [hneg, h2]
  · intro h
    have hred := executeOrder_sell_reduce n a sym q price slip h
    have hb : (sellExec n a sym q price slip).2.1 = true := by
      rw [hred] at h
      exact h
    have hent := sellExec_entry_of_filled n a sym q price slip hb
    rw [hred] at h ⊢
    rw [hent]
    refine ⟨?_, ?_, ?_, ?_, ?_⟩
    · intro h0
      simp [h0, Function.update_same]
    · intro hneg
      have h1 : a.portfolio sym ≤ 0 := hneg.le
      have h2 : ¬ a.portfolio sym = 0 := ne_of_lt hneg
      simp [h1, h2]
    · intro hpos hzero
      have h1 : ¬ a.portfolio sym ≤ 0 := not_le.mpr hpos
      simp [h1, hzero, Function.update_same]
    · intro hpos hltz
      have h1 : ¬ a.portfolio sym ≤ 0 := not_le.mpr hpos
      simp [h1, hltz.le, hltz, Function.update_same]
    · intro hpos hposnew
      have h1 : ¬ a.portfolio sym ≤ 0 := not_le.mpr hpos
      have h2 : ¬ a.portfolio sym - q ≤ 0 := not_le.mpr hposnew
      simp [h1, h2]

/-- Witness for the amended C8: a fresh short on a flat account records the
fill price as entry. -/
theorem C8_entry_bookkeeping_witness :
    (executeOrder 1 ⟨100, 100, 0, fun _ => 0, fun _ => none, 0, 0, 0, 0⟩ .SELL
      (some 0) 1 (fun _ => 10) 0).2.1 = true ∧
    (executeOrder 1 ⟨100, 100, 0, fun _ => 0, fun _ => none, 0, 0, 0, 0⟩ .SELL
      (some 0) 1 (fun _ => 10) 0).1.entry_prices 0 = some (10 * (1 - 0)) :=
  have hex : (executeOrder 1 ⟨100, 100, 0, fun _ => 0, fun _ => none, 0, 0, 0, 0⟩ .SELL
      (some 0) 1 (fun _ => 10) 0).2.1 = true := by
    norm_num [executeOrder, sellExec, markEquity, shortValue, sumQ_one, feeRate]
    rfl
  ⟨hex,
   ((C8_entry_bookkeeping 1 ⟨100, 100, 0, fun _ => 0, fun _ => none, 0, 0, 0, 0⟩
       0 1 (fun _ => 10) 0).2 hex).1 rfl⟩

/-- C2, counterexample.  The leverage bound is not an invariant: a SELL that
flips a long of 1 into a short of 99 takes the closing-long path, which runs
no leverage check, leaving short notional (9900) far above four times the
post-trade equity (about 366) — and this is a flip that increases exposure,
not a cover. -/
theorem C2_counterexample :
    (executeOrder 1 ⟨0, 0, 0, fun _ => 1, fun _ => some 100, 0, 0, 0, 0⟩ .SELL
      (some 0) 100 (fun _ => 100) (1 / 10000)).2.1 = true ∧
    markEquity 1 (executeOrder 1 ⟨0, 0, 0, fun _ => 1, fun _ => some 100, 0, 0, 0, 0⟩ .SELL
      (some 0) 100 (fun _ => 100) (1 / 10000)).1 (fun _ => 100) * 4 <
      shortValue 1 (executeOrder 1 ⟨0, 0, 0, fun _ => 1, fun _ => some 100, 0, 0, 0, 0⟩ .SELL
        (some 0) 100 (fun _ => 100) (1 / 10000)).1 (fun _ => 100) := by
  have hred : executeOrder 1 ⟨0, 0, 0, fun _ => 1, fun _ => some 100, 0, 0, 0, 0⟩ .SELL
      (some 0) 100 (fun _ => 100) (1 / 10000) =
      (⟨39966003 / 4000, 0, 0, Function.update (fun _ => 1) 0 (-99),
        Function.update (fun _ => some 100) 0 (some (9999 / 100)),
        29997 / 4000, 1, 0, 0⟩, true, 29997 / 4000) := by
    norm_num [executeOrder, sellExec, markEquity, shortValue, sumQ_one, feeRate]
    rfl
  rw [hred]
  constructor
  · rfl
  · norm_num [markEquity, shortValue, sumQ_one, Function.update_same]

/-- C2, amended.  The four-times-equity bound is enforced only at order
entry for orders that open or increase exposure on a side: a BUY on a
flat-or-long symbol is rejected, with cash and holdings unchanged, when its
cost exceeds the remaining long buying power, and a SELL on a flat-or-short
symbol is rejected, with cash and holdings unchanged, when its notional
exceeds the remaining short capacity; orders that close or flip an existing
position bypass the check, so a flip can leave notional above
equity times 4. -/
theorem C2_leverage_gate (n : ℕ) (a : Account n) (sym : Fin n) (q : ℚ)
    (price : Fin n → ℚ) (slip : ℚ) :
    (¬ a.portfolio sym < 0 →
      markEquity n a price * 4 - longValue n a price < q * (price sym * (1 + slip)) →
      (executeOrder n a .BUY (some sym) q price slip).2.1 = false ∧
      (executeOrder n a .BUY (some sym) q price slip).1.cash = a.cash ∧
      ∀ s, (executeOrder n a .BUY (some sym) q price slip).1.portfolio s =
        a.portfolio s) ∧
    (a.portfolio sym ≤ 0 →
      markEquity n a price * 4 - shortValue n a price < q * (price sym * (1 - slip)) →
      (executeOrder n a .SELL (some sym) q price slip).2.1 = false ∧
      (executeOrder n a .SELL (some sym) q price slip).1.cash = a.cash ∧
      ∀ s, (executeOrder n a .SELL (some sym) q price slip).1.portfolio s =
        a.portfolio s) := by
  have hsellbuy : ¬ Decision.SELL = Decision.BUY := fun hc => Decision.noConfusion hc
  constructor
  · intro hcur hbp
    by_cases hg1 : Decision.BUY = Decision.HOLD ∨ q ≤ 0
    · simp only [executeOrder, if_pos hg1]
      first
        | exact ⟨rfl, rfl, fun s => rfl⟩
        | simp
    · by_cases hg2 : price sym ≤ 0
      · simp only [executeOrder, if_neg hg1, if_pos hg2]
        first
          | exact ⟨rfl, rfl, fun s => rfl⟩
          | simp
      · have hno : ¬ (q * (price sym * (1 + slip)) ≤
            markEquity n a price * 4 - longValue n a price ∧
            q * (price sym * (1 + slip)) +
              q * (price sym * (1 + slip)) * feeRate ≤ a.cash) :=
          fun hc => absurd hc.1 (not_le.mpr hbp)
        simp only [executeOrder, buyExec, if_neg hg1, if_neg hg2,
          if_pos (rfl : Decision.BUY = Decision.BUY), if_true, if_neg hcur, if_neg hno]
        first
          | exact ⟨rfl, rfl, fun s => rfl⟩
          | simp
  · intro hcur hcap
    by_cases hg1 : Decision.SELL = Decision.HOLD ∨ q ≤ 0
    · simp only [executeOrder, if_pos hg1]
      first
        | exact ⟨rfl, rfl, fun s => rfl⟩
        | simp
    · by_cases hg2 : price sym ≤ 0
      · simp only [executeOrder, if_neg hg1, if_pos hg2]
        first
          | exact ⟨rfl, rfl, fun s => rfl⟩
          | simp
      · have hno : ¬ (q * (price sym * (1 - slip)) ≤
            markEquity n a price * 4 - shortValue n a price) := not_le.mpr hcap
        simp only [executeOrder, sellExec, if_neg hg1, if_neg hg2,
          if_neg hsellbuy, if_pos hcur, if_neg hno]
        first
          | exact ⟨rfl, rfl, fun s => rfl⟩
          | simp

/-- Witness for the amended C2: a flat account with cash 100 tries to buy
100 units at price 100 (cost about 10001, buying power 400) and is rejected
with cash and holdings unchanged. -/
theorem C2_leverage_gate_witness :
    ¬ (⟨100, 100, 0, fun _ => 0, fun _ => none, 0, 0, 0, 0⟩ : Account 1).portfolio 0 < 0 ∧
    markEquity 1 ⟨100, 100, 0, fun _ => 0, fun _ => none, 0, 0, 0, 0⟩ (fun _ => 100) * 4 -
      longValue 1 ⟨100, 100, 0, fun _ => 0, fun _ => none, 0, 0, 0, 0⟩ (fun _ => 100) <
      100 * (100 * (1 + 1 / 10000)) ∧
    (executeOrder 1 ⟨100, 100, 0, fun _ => 0, fun _ => none, 0, 0, 0, 0⟩ .BUY
      (some 0) 100 (fun _ => 100) (1 / 10000)).2.1 = false ∧
    (executeOrder 1 ⟨100, 100, 0, fun _ => 0, fun _ => none, 0, 0, 0, 0⟩ .BUY
      (some 0) 100 (fun _ => 100) (1 / 10000)).1.cash = 100 :=
  have h1 : ¬ (⟨100, 100, 0, fun _ => 0, fun _ => none, 0, 0, 0, 0⟩ :
      Account 1).portfolio 0 < 0 := by norm_num
  have h2 : markEquity 1 ⟨100, 100, 0, fun _ => 0, fun _ => none, 0, 0, 0, 0⟩
        (fun _ => 100) * 4 -
      longValue 1 ⟨100, 100, 0, fun _ => 0, fun _ => none, 0, 0, 0, 0⟩ (fun _ => 100) <
      100 * (100 * (1 + 1 / 10000)) := by
    norm_num [markEquity, longValue, sumQ_one]
  have h := (C2_leverage_gate 1 ⟨100, 100, 0, fun _ => 0, fun _ => none, 0, 0, 0, 0⟩
    0 100 (fun _ => 100) (1 / 10000)).1 h1 h2
  ⟨h1, h2, h.1, h.2.1⟩

/-- Indexing a zipWith at a position inside both lists gives the function
applied to the entries at that position. -/
theorem getElem?_zipWith_of_lt {α β γ : Type} (f : α → β → γ) :
    ∀ (as : List α) (bs : List β) (i : ℕ) (h1 : i < as.length)
      (h2 : i < bs.length),
      (List.zipWith f as bs)[i]? = some (f (as.get ⟨i, h1⟩) (bs.get ⟨i, h2⟩)) := by
  intro as
  induction as with
  | nil =>
      intro bs i h1 h2
      exact absurd h1 (by simp)
  | cons a as ih =>
      intro bs i h1 h2
      cases bs with
      | nil => exact absurd h2 (by simp)
      | cons b bs =>
          cases i with
          | zero => simp
          | succ j =>
              simpa using ih bs j (Nat.lt_of_succ_lt_succ h1) (Nat.lt_of_succ_lt_succ h2)

/-- C9.  A strategy that raises is isolated: that agent's decision for the
tick is HOLD, nothing is executed, its account goes through the risk phase
only (trading leaves it untouched), and every agent in the tick loop is
processed independently from its own account and its own strategy outcome,
so the other agents' accounts evolve exactly as they would alone — for a
strategy raising every tick this holds at every tick. -/
theorem C9_raise_isolation (n : ℕ) (price : Fin n → ℚ) (slip : ℚ) :
    (∀ a : Account n,
      (agentTick n a .raises price slip).decision = .HOLD ∧
      (agentTick n a .raises price slip).executed = false ∧
      (agentTick n a .raises price slip).account = (riskPhase n a price).1) ∧
    (∀ (accounts : List (Account n)) (outcomes : List StratOutcome) (i : ℕ)
        (h1 : i < accounts.length) (h2 : i < outcomes.length),
      (tickAll n accounts outcomes price slip)[i]? =
        some (agentTick n (accounts.get ⟨i, h1⟩) (outcomes.get ⟨i, h2⟩) price slip)) := by
  constructor
  · intro a
    exact ⟨rfl, rfl, rfl⟩
  · intro accounts outcomes i h1 h2
    exact getElem?_zipWith_of_lt (fun a o => agentTick n a o price slip)
      accounts outcomes i h1 h2

/-- Witness for C9 at a concrete input: one raising agent and one healthy
agent in the same tick; the raising agent holds and the tick processes each
agent from its own state. -/
theorem C9_raise_isolation_witness :
    (agentTick 1 ⟨100, 100, 0, fun _ => 0, fun _ => none, 0, 0, 0, 0⟩ .raises
      (fun _ => 1) 0).decision = .HOLD ∧
    (0 : ℕ) < 2 ∧
    (tickAll 1 [⟨100, 100, 0, fun _ => 0, fun _ => none, 0, 0, 0, 0⟩,
        ⟨90, 90, 0, fun _ => 0, fun _ => none, 0, 0, 0, 0⟩]
      [.raises, .returns .HOLD none (.num 0)] (fun _ => 1) 0)[0]? =
      some (agentTick 1
        (([⟨100, 100, 0, fun _ => 0, fun _ => none, 0, 0, 0, 0⟩,
           ⟨90, 90, 0, fun _ => 0, fun _ => none, 0, 0, 0, 0⟩] :
          List (Account 1)).get ⟨0, by simp⟩)
        (([.raises, .returns .HOLD none (.num 0)] : List StratOutcome).get ⟨0, by simp⟩)
        (fun _ => 1) 0) :=
  ⟨((C9_raise_isolation 1 (fun _ => 1) 0).1
      ⟨100, 100, 0, fun _ => 0, fun _ => none, 0, 0, 0, 0⟩).1,
   by norm_num,
   (C9_raise_isolation 1 (fun _ => 1) 0).2
     [⟨100, 100, 0, fun _ => 0, fun _ => none, 0, 0, 0, 0⟩,
      ⟨90, 90, 0, fun _ => 0, fun _ => none, 0, 0, 0, 0⟩]
     [.raises, .returns .HOLD none (.num 0)] 0 (by simp) (by simp)⟩

end AlgoLive
